import Mathlib

/-!
# CurlX — verification of the request/response data model and execution path

A shallow embedding of the CurlX HTTP-wrapper library.  C++ `std::string`
values are modelled as lists of byte values (`List Nat`, each entry < 256);
`std::optional` becomes `Option`; functions that throw become `Except`.
The embedding follows the "hardened" variants of Headers/Session/Response
(the repository also carries minimal duplicates of these translation units).
-/

/-- A C++ byte string: the list of its byte values (0–255). -/
abbrev Str : Type := List Nat

/-- `std::string::find(byte)`: index of the first occurrence, `none` for `npos`. -/
def strFind (b : Nat) : Str → Option Nat
  | [] => none
  | c :: rest => if c = b then some 0 else (strFind b rest).map (· + 1)

/-- `std::string::find(byte, pos)`: first occurrence at index ≥ `start`. -/
def strFindFrom (b : Nat) (s : Str) (start : Nat) : Option Nat :=
  (strFind b (s.drop start)).map (· + start)

theorem strFind_eq_none_iff (b : Nat) (s : Str) : strFind b s = none ↔ b ∉ s := by
  induction s with
  | nil => simp [strFind]
  | cons c rest ih =>
    by_cases hc : c = b
    · simp [strFind, hc]
    · have hbc : ¬ b = c := fun h => hc h.symm
      simp [strFind, if_neg hc, Option.map_eq_none', ih, hbc]

theorem strFind_append_cons (b : Nat) (a t : Str) (h : b ∉ a) :
    strFind b (a ++ b :: t) = some a.length := by
  induction a with
  | nil => simp [strFind]
  | cons c rest ih =>
    have hc : c ≠ b := fun hcb => h (by simp [hcb])
    have hrest : b ∉ rest := fun hm => h (by simp [hm])
    simp [strFind, if_neg hc, ih hrest]

theorem strFind_some_split (b : Nat) (s : Str) (i : Nat) (h : strFind b s = some i) :
    s.take i ++ b :: s.drop (i + 1) = s := by
  induction s generalizing i with
  | nil => simp [strFind] at h
  | cons c rest ih =>
    by_cases hc : c = b
    · simp [strFind, hc] at h
      subst h
      simp [hc]
    · simp only [strFind, if_neg hc, Option.map_eq_some'] at h
      obtain ⟨j, hj, hji⟩ := h
      subst hji
      simp [List.take_succ_cons, List.drop_succ_cons, ih j hj]

/-! ## COOKIES (Cookies.hpp / Cookies.cpp)

`std::unordered_map<std::string, std::string>`; modelled as an association
list in which `add` overwrites any previous binding (last write wins). -/

structure COOKIES where
  cookies_ : List (Str × Str) := []
deriving DecidableEq

/-- `COOKIES::add`: `cookies_[key] = value` — insert or overwrite. -/
def COOKIES.add (m : COOKIES) (k v : Str) : COOKIES :=
  ⟨(k, v) :: m.cookies_.filter (fun p => p.1 ≠ k)⟩

/-- `COOKIES::get`: map lookup, `nullopt` when absent. -/
def COOKIES.get (m : COOKIES) (k : Str) : Option Str :=
  m.cookies_.lookup k

theorem COOKIES.get_add (m : COOKIES) (k v : Str) : (m.add k v).get k = some v := by
  simp [COOKIES.add, COOKIES.get, List.lookup]

/-! ## RESPONSE (Response.hpp / part_005) -/

structure RESPONSE where
  statusCode : Int := 0
  body : Str := []
  headers : List Str := []
  request_url : Str := []
  received_cookies : COOKIES := {}
  elapsed_time : ℚ := 0
  history : List Str := []

/-- `RESPONSE::ok()` as implemented (part_005 lines 142–144):
`statusCode >= 200 && statusCode < 300`. -/
def RESPONSE.ok (r : RESPONSE) : Bool :=
  decide (200 ≤ r.statusCode ∧ r.statusCode < 300)

/-- `RESPONSE::is_success()` (part_005 lines 162–164):
`statusCode >= 200 && statusCode < 300`. -/
def RESPONSE.is_success (r : RESPONSE) : Bool :=
  decide (200 ≤ r.statusCode ∧ r.statusCode < 300)

/-- The failure kinds of Exceptions.hpp (all derive `RequestException`). -/
inductive ExcKind where
  | requestException
  | connectionError
  | timeout
  | httpError
  | tooManyRedirects
deriving DecidableEq, Repr

/-- Modelled from the spec: `RESPONSE::raise_for_status` is declared in
Response.hpp (line 73) but its definition is not among the source files.
Spec §4.5: it "fails with HTTPError iff status is not `ok` by the rule
above", the rule above being status ∈ [200,400); the repository's API
reference likewise says it throws for 4xx/5xx statuses. -/
def RESPONSE.raise_for_status (r : RESPONSE) : Except ExcKind Unit :=
  if 200 ≤ r.statusCode ∧ r.statusCode < 400 then Except.ok () else Except.error ExcKind.httpError

/-! ## AUTH (Auth.hpp) -/

inductive AuthType where
  | none
  | basic
  | digest
deriving DecidableEq, Repr

structure AUTH where
  username_ : Str := []
  password_ : Str := []
  type_ : AuthType := AuthType.none
deriving DecidableEq

/-- The single-string `AUTH(std::string user_pass_string)` constructor
(Auth.hpp lines 23–32): split on the first `:`; no colon means the whole
string is the username and the password is empty; type is always Basic. -/
def AUTH.ofUserPassString (s : Str) : AUTH :=
  match strFind 58 s with
  | some cp => ⟨s.take cp, s.drop (cp + 1), AuthType.basic⟩
  | none => ⟨s, [], AuthType.basic⟩

/-- `AUTH::user_pass_string()` (Auth.hpp lines 39–44). -/
def AUTH.user_pass_string (a : AUTH) : Str :=
  if a.type_ ≠ AuthType.none then a.username_ ++ 58 :: a.password_ else []

/-! ## Claim C1, C2, C10 -/

/-- C1 (code_bug): the spec says `ok()` is true iff status ∈ [200,400) —
true at 200 and 399, false at 400 and 100 — and the repository's own API
reference (part_000 line 70) agrees ("2xx or 3xx range"); the
implementation checks [200,300), so `ok()` is false at 399 (and at every
3xx status).  `is_success()` does match [200,300) as claimed. -/
theorem RESPONSE.ok_code_bug_at_399 :
    RESPONSE.ok { statusCode := 399 } = false
    ∧ RESPONSE.is_success { statusCode := 399 } = false
    ∧ RESPONSE.ok { statusCode := 200 } = true
    ∧ RESPONSE.ok { statusCode := 400 } = false
    ∧ RESPONSE.ok { statusCode := 100 } = false
    ∧ RESPONSE.is_success { statusCode := 200 } = true
    ∧ RESPONSE.is_success { statusCode := 300 } = false := by
  refine ⟨rfl, rfl, rfl, rfl, rfl, rfl, rfl⟩

/-- C2 (code_bug): the claim says `raise_for_status()` fails with HTTPError
exactly when `ok()` is false.  With `raise_for_status` modelled from the
spec's rule (fails iff status ∉ [200,400)), the equivalence breaks at
status 300: `raise_for_status` returns normally there, yet the implemented
`ok()` — which wrongly checks [200,300) — returns false. -/
theorem RESPONSE.raise_for_status_code_bug_at_300 :
    RESPONSE.raise_for_status { statusCode := 300 } = Except.ok ()
    ∧ RESPONSE.ok { statusCode := 300 } = false := by
  refine ⟨rfl, rfl⟩

/-- C10 (confirmed): constructing `AUTH` from a single user:pass string with
no colon yields the whole string as username, an empty password, and Basic
auth; with a colon the split is on the first colon (so the password may
contain colons), and `user_pass_string()` reproduces the original string. -/
theorem AUTH.ofUserPassString_spec (s : Str) :
    ((58 : Nat) ∉ s →
      (AUTH.ofUserPassString s).username_ = s
      ∧ (AUTH.ofUserPassString s).password_ = []
      ∧ (AUTH.ofUserPassString s).type_ = AuthType.basic)
    ∧ (∀ cp, strFind 58 s = some cp →
      (AUTH.ofUserPassString s).username_ = s.take cp
      ∧ (AUTH.ofUserPassString s).password_ = s.drop (cp + 1)
      ∧ (AUTH.ofUserPassString s).type_ = AuthType.basic
      ∧ (AUTH.ofUserPassString s).user_pass_string = s) := by
  constructor
  · intro hno
    have h : strFind 58 s = none := (strFind_eq_none_iff 58 s).mpr hno
    simp [AUTH.ofUserPassString, h]
  · intro cp hcp
    have hsplit := strFind_some_split 58 s cp hcp
    have hdef : AUTH.ofUserPassString s = ⟨s.take cp, s.drop (cp + 1), AuthType.basic⟩ := by
      simp [AUTH.ofUserPassString, hcp]
    rw [hdef]
    refine ⟨rfl, rfl, rfl, ?_⟩
    simp only [AUTH.user_pass_string]
    rw [if_pos (by decide)]
    exact hsplit

/-- Witness for C10 at the concrete inputs "up" (no colon) and "u:p:q"
(password containing a colon). -/
theorem AUTH.ofUserPassString_spec_witness :
    ((AUTH.ofUserPassString [117, 112]).username_ = [117, 112]
      ∧ (AUTH.ofUserPassString [117, 112]).password_ = []
      ∧ (AUTH.ofUserPassString [117, 112]).type_ = AuthType.basic)
    ∧ ((AUTH.ofUserPassString [117, 58, 112, 58, 113]).username_ = [117]
      ∧ (AUTH.ofUserPassString [117, 58, 112, 58, 113]).password_ = [112, 58, 113]
      ∧ (AUTH.ofUserPassString [117, 58, 112, 58, 113]).type_ = AuthType.basic
      ∧ (AUTH.ofUserPassString [117, 58, 112, 58, 113]).user_pass_string
          = [117, 58, 112, 58, 113]) := by
  constructor
  · exact (AUTH.ofUserPassString_spec [117, 112]).1 (by decide)
  · have h := (AUTH.ofUserPassString_spec [117, 58, 112, 58, 113]).2 1 (by decide)
    simpa using h

/-! ## HEADERS (Headers.hpp / part_004, hardened variant)

Header strings are compared byte-by-byte as C++ `char`s; on the library's
reference platform (x86-64 Linux) `char` is signed, so a byte ≥ 128 has a
negative `char` value.  `schar` is that signed reading of a byte. -/

def schar (c : Nat) : Int := if c < 128 then (c : Int) else (c : Int) - 256

def MAX_HEADER_SIZE : Nat := 8192
def MAX_HEADERS_COUNT : Nat := 1000
def MAX_HEADER_NAME_SIZE : Nat := 256
def MAX_HEADER_VALUE_SIZE : Nat := 4096

/-- `is_valid_header_name` (part_004 lines 19–32): non-empty, bounded length,
and every `char` satisfies `!(c < 32 || c > 126 || c == ':')`. -/
def is_valid_header_name (nm : Str) : Prop :=
  nm ≠ [] ∧ nm.length ≤ MAX_HEADER_NAME_SIZE ∧
    ∀ c ∈ nm, ¬(schar c < 32 ∨ 126 < schar c ∨ c = 58)

/-- `is_valid_header_value` (part_004 lines 34–47): bounded length and every
`char` satisfies `!(c < 32 && c != '\t')`. -/
def is_valid_header_value (v : Str) : Prop :=
  v.length ≤ MAX_HEADER_VALUE_SIZE ∧ ∀ c ∈ v, ¬(schar c < 32 ∧ c ≠ 9)

instance (nm : Str) : Decidable (is_valid_header_name nm) := by
  unfold is_valid_header_name
  infer_instance

instance (v : Str) : Decidable (is_valid_header_value v) := by
  unfold is_valid_header_value
  infer_instance

structure HEADERS where
  headers_ : List Str := []
deriving DecidableEq

inductive HeaderError where
  | validation
  | capacity
  | concatLength
deriving DecidableEq, Repr

/-- `HEADERS::add(key, value)` (part_004 lines 102–123): name validation,
value validation, capacity check, then `safe_concat` (which itself rejects a
combined size above `MAX_HEADER_SIZE`) and append of `"key: value"`. -/
def HEADERS.add (h : HEADERS) (nm v : Str) : Except HeaderError HEADERS :=
  if ¬ is_valid_header_name nm then Except.error HeaderError.validation
  else if ¬ is_valid_header_value v then Except.error HeaderError.validation
  else if MAX_HEADERS_COUNT ≤ h.headers_.length then Except.error HeaderError.capacity
  else if MAX_HEADER_SIZE < nm.length + v.length + 2 then Except.error HeaderError.concatLength
  else Except.ok ⟨h.headers_ ++ [nm ++ [58, 32] ++ v]⟩

/-- `::tolower` in the C locale, on a byte. -/
def tolowerByte (c : Nat) : Nat := if 65 ≤ c ∧ c ≤ 90 then c + 32 else c

/-- `::toupper` in the C locale, on a byte (used to model `name.upper()`). -/
def toupperByte (c : Nat) : Nat := if 97 ≤ c ∧ c ≤ 122 then c - 32 else c

def lowerStr (s : Str) : Str := s.map tolowerByte

def upperStr (s : Str) : Str := s.map toupperByte

/-- The scan of `HEADERS::get` (part_004 lines 189–217): first entry whose
lower-cased text starts with the lower-cased name; the value is everything
after `": "` provided `colon_pos + 2 < header.length()`, otherwise the scan
continues. -/
def headersGetLoop (nm : Str) : List Str → Option Str
  | [] => none
  | header :: rest =>
      if header.length < nm.length then headersGetLoop nm rest
      else if (lowerStr nm).isPrefixOf (lowerStr header) then
        match strFind 58 header with
        | some cp =>
            if cp + 2 < header.length then some (header.drop (cp + 2))
            else headersGetLoop nm rest
        | none => headersGetLoop nm rest
      else headersGetLoop nm rest

/-- `HEADERS::get(name)` (part_004 lines 189–217). -/
def HEADERS.get (h : HEADERS) (nm : Str) : Option Str :=
  if nm = [] ∨ ¬ is_valid_header_name nm then none
  else headersGetLoop nm h.headers_

/-! ### Claim-side predicates for C6 (spelled from the spec's words) -/

/-- The claim's name-rejection condition: empty, over the maximum name
length, or containing a colon or a non-printable character (printable ASCII
being codes 32–126). -/
def ClaimNameRejected (nm : Str) : Prop :=
  nm = [] ∨ MAX_HEADER_NAME_SIZE < nm.length ∨
    ∃ c ∈ nm, c = 58 ∨ ¬(32 ≤ c ∧ c ≤ 126)

/-- The claim's value-rejection condition: over the maximum value length, or
containing a control character (ASCII codes 0–31 and DEL, 127) other than
tab. -/
def ClaimValueRejected (v : Str) : Prop :=
  MAX_HEADER_VALUE_SIZE < v.length ∨ ∃ c ∈ v, (c < 32 ∨ c = 127) ∧ c ≠ 9

/-- The amended value-rejection condition, matching the code: over the
maximum value length, or containing a byte other than tab whose signed
`char` value is below 32 — i.e. a byte below 32 or at or above 128.
DEL (127) is accepted by the code. -/
def AmendedValueRejected (v : Str) : Prop :=
  MAX_HEADER_VALUE_SIZE < v.length ∨ ∃ c ∈ v, (c < 32 ∨ 128 ≤ c) ∧ c ≠ 9

instance (nm : Str) : Decidable (ClaimNameRejected nm) := by
  unfold ClaimNameRejected
  infer_instance

instance (v : Str) : Decidable (ClaimValueRejected v) := by
  unfold ClaimValueRejected
  infer_instance

instance (v : Str) : Decidable (AmendedValueRejected v) := by
  unfold AmendedValueRejected
  infer_instance

theorem is_valid_header_name_iff (nm : Str) (h : ∀ c ∈ nm, c < 256) :
    is_valid_header_name nm ↔ ¬ ClaimNameRejected nm := by
  unfold is_valid_header_name ClaimNameRejected
  push_neg
  refine and_congr Iff.rfl (and_congr Iff.rfl (forall₂_congr fun c hc => ?_))
  have hb := h c hc
  unfold schar
  split_ifs <;> omega

theorem is_valid_header_value_iff (v : Str) (h : ∀ c ∈ v, c < 256) :
    is_valid_header_value v ↔ ¬ AmendedValueRejected v := by
  unfold is_valid_header_value AmendedValueRejected
  push_neg
  refine and_congr Iff.rfl (forall₂_congr fun c hc => ?_)
  have hb := h c hc
  unfold schar
  split_ifs <;> omega

/-! ### Claim C6 -/

/-- C6 counterexample: DEL (byte 127) is an ASCII control character other
than tab, so the claim demands a validation error — but the code's value
check only rejects `char`s below 32, so `add("X", "\x7f")` succeeds and
appends the entry. -/
theorem HEADERS.add_del_counterexample :
    ClaimValueRejected [127]
    ∧ ¬ ClaimNameRejected [88]
    ∧ HEADERS.add ⟨[]⟩ [88] [127] = Except.ok ⟨[[88, 58, 32, 127]]⟩ := by
  refine ⟨by decide, by decide, rfl⟩

/-- C6 (corrected): `HEADERS::add(name, value)` fails with a validation
error if the name is empty, too long, or contains a colon or non-printable
character; it fails with a validation error if the value is too long or
contains a byte other than tab whose signed `char` value is below 32 (a
byte below 32 or ≥ 128 — DEL, 127, is accepted, unlike what the claim
says); it fails with a capacity error at the maximum entry count;
otherwise it appends exactly one "Name: Value" entry, and a successful add
never pushes the size past the cap. -/
theorem HEADERS.add_spec (h : HEADERS) (nm v : Str)
    (hb1 : ∀ c ∈ nm, c < 256) (hb2 : ∀ c ∈ v, c < 256) :
    (ClaimNameRejected nm → h.add nm v = Except.error HeaderError.validation)
    ∧ (¬ ClaimNameRejected nm → AmendedValueRejected v →
        h.add nm v = Except.error HeaderError.validation)
    ∧ (¬ ClaimNameRejected nm → ¬ AmendedValueRejected v →
        MAX_HEADERS_COUNT ≤ h.headers_.length →
        h.add nm v = Except.error HeaderError.capacity)
    ∧ (¬ ClaimNameRejected nm → ¬ AmendedValueRejected v →
        h.headers_.length < MAX_HEADERS_COUNT →
        h.add nm v = Except.ok ⟨h.headers_ ++ [nm ++ [58, 32] ++ v]⟩)
    ∧ (∀ h', h.add nm v = Except.ok h' → h'.headers_.length ≤ MAX_HEADERS_COUNT) := by
  refine ⟨?_, ?_, ?_, ?_, ?_⟩
  · intro hrej
    have hnv : ¬ is_valid_header_name nm :=
      fun hv => ((is_valid_header_name_iff nm hb1).mp hv) hrej
    unfold HEADERS.add
    rw [if_pos hnv]
  · intro hnm hrej
    have hn : is_valid_header_name nm := (is_valid_header_name_iff nm hb1).mpr hnm
    have hvv : ¬ is_valid_header_value v :=
      fun hv => ((is_valid_header_value_iff v hb2).mp hv) hrej
    unfold HEADERS.add
    rw [if_neg (not_not_intro hn), if_pos hvv]
  · intro hnm hvv hcap
    have hn : is_valid_header_name nm := (is_valid_header_name_iff nm hb1).mpr hnm
    have hv : is_valid_header_value v := (is_valid_header_value_iff v hb2).mpr hvv
    unfold HEADERS.add
    rw [if_neg (not_not_intro hn), if_neg (not_not_intro hv), if_pos hcap]
  · intro hnm hvv hcap
    have hn : is_valid_header_name nm := (is_valid_header_name_iff nm hb1).mpr hnm
    have hv : is_valid_header_value v := (is_valid_header_value_iff v hb2).mpr hvv
    have hlen1 : nm.length ≤ 256 := hn.2.1
    have hlen2 : v.length ≤ 4096 := hv.1
    unfold HEADERS.add
    rw [if_neg (not_not_intro hn), if_neg (not_not_intro hv),
      if_neg (not_le_of_lt hcap), if_neg ?_]
    show ¬ (MAX_HEADER_SIZE < nm.length + v.length + 2)
    unfold MAX_HEADER_SIZE
    omega
  · intro h' heq
    unfold HEADERS.add at heq
    split_ifs at heq with h1 h2 h3 h4
    cases heq
    show (h.headers_ ++ [nm ++ [58, 32] ++ v]).length ≤ 1000
    unfold MAX_HEADERS_COUNT at h3
    simp only [List.length_append, List.length_cons, List.length_nil]
    omega

/-- Witness for C6 at concrete inputs: a rejected empty name, a rejected
value containing a newline, a capacity failure at a full collection, and a
successful append. -/
theorem HEADERS.add_spec_witness :
    HEADERS.add ⟨[]⟩ [] [104] = Except.error HeaderError.validation
    ∧ HEADERS.add ⟨[]⟩ [88] [10] = Except.error HeaderError.validation
    ∧ HEADERS.add ⟨[]⟩ [88] [104, 105] = Except.ok ⟨[[88, 58, 32, 104, 105]]⟩ := by
  refine ⟨?_, ?_, ?_⟩
  · exact (HEADERS.add_spec ⟨[]⟩ [] [104] (by decide) (by decide)).1 (by decide)
  · exact (HEADERS.add_spec ⟨[]⟩ [88] [10] (by decide) (by decide)).2.1
      (by decide) (by decide)
  · exact (HEADERS.add_spec ⟨[]⟩ [88] [104, 105] (by decide) (by decide)).2.2.2.1
      (by decide) (by decide) (by decide)

/-! ### Claim C7 -/

theorem isPrefixOf_append (a t : Str) : a.isPrefixOf (a ++ t) = true := by
  induction a with
  | nil => simp [List.isPrefixOf]
  | cons c rest ih => simp [List.isPrefixOf, ih]

theorem tolower_toupper (c : Nat) : tolowerByte (toupperByte c) = tolowerByte c := by
  unfold tolowerByte toupperByte
  split_ifs <;> omega

theorem toupper_name_valid (nm : Str) (hn : is_valid_header_name nm) :
    is_valid_header_name (upperStr nm) := by
  obtain ⟨h1, h2, h3⟩ := hn
  refine ⟨by simpa [upperStr] using h1, by simpa [upperStr] using h2, ?_⟩
  intro c' hc'
  obtain ⟨c, hc, rfl⟩ := List.mem_map.mp hc'
  have hb := h3 c hc
  unfold schar toupperByte
  unfold schar at hb
  split_ifs at hb ⊢ <;> omega

/-- The `HEADERS::get` scan over a single stored entry `"nm: v"` succeeds
for any query `q` of the same length and case-folded spelling as `nm`,
provided the value is non-empty (the scan requires `colon_pos + 2` to be a
strict lower bound of the entry length). -/
theorem headersGet_single_entry (nm v q : Str) (hq : q ≠ [])
    (hvq : is_valid_header_name q) (hlow : lowerStr q = lowerStr nm)
    (hlen : q.length = nm.length) (hc : (58 : Nat) ∉ nm) (hne : v ≠ []) :
    HEADERS.get ⟨[nm ++ [58, 32] ++ v]⟩ q = some v := by
  have hlen_entry : (nm ++ [58, 32] ++ v).length = nm.length + (2 + v.length) := by
    simp [List.length_append]
    omega
  have h1 : ¬ ((nm ++ [58, 32] ++ v).length < q.length) := by
    rw [hlen_entry, hlen]
    omega
  have h2 : ((lowerStr q).isPrefixOf (lowerStr (nm ++ [58, 32] ++ v))) = true := by
    rw [hlow]
    have hsplit : lowerStr (nm ++ [58, 32] ++ v) = lowerStr nm ++ ([58, 32] ++ lowerStr v) := by
      simp [lowerStr, tolowerByte]
    rw [hsplit]
    exact isPrefixOf_append _ _
  have h3 : strFind 58 (nm ++ [58, 32] ++ v) = some nm.length := by
    have he : nm ++ [58, 32] ++ v = nm ++ 58 :: (32 :: v) := by simp
    rw [he]
    exact strFind_append_cons 58 nm (32 :: v) hc
  have h4 : nm.length + 2 < (nm ++ [58, 32] ++ v).length := by
    rw [hlen_entry]
    have : 0 < v.length := List.length_pos.mpr hne
    omega
  have h5 : (nm ++ [58, 32] ++ v).drop (nm.length + 2) = v := by
    have he : nm ++ [58, 32] ++ v = (nm ++ [58, 32]) ++ v := by simp
    have hl : (nm ++ [58, 32]).length = nm.length + 2 := by simp
    rw [he, ← hl]
    exact List.drop_left _ _
  unfold HEADERS.get
  rw [if_neg (not_or.mpr ⟨hq, not_not_intro hvq⟩)]
  unfold headersGetLoop
  rw [if_neg h1, if_pos h2, h3]
  show (if nm.length + 2 < (nm ++ [58, 32] ++ v).length
      then some ((nm ++ [58, 32] ++ v).drop (nm.length + 2))
      else headersGetLoop q []) = some v
  rw [if_pos h4, h5]

/-- C7 counterexample: the empty value satisfies every length and character
constraint, `add("X", "")` succeeds and stores `"X: "`, but `get("X")`
returns nothing — the scan requires `colon_pos + 2 < header.length()`,
which fails for an empty value — so "add then get returns the value" is
false at an empty value. -/
theorem HEADERS.get_empty_value_counterexample :
    is_valid_header_name [88]
    ∧ is_valid_header_value ([] : Str)
    ∧ HEADERS.add ⟨[]⟩ [88] [] = Except.ok ⟨[[88, 58, 32]]⟩
    ∧ HEADERS.get ⟨[[88, 58, 32]]⟩ [88] = none := by
  refine ⟨by decide, by decide, rfl, rfl⟩

/-- C7 (corrected): for every name and non-empty value satisfying the
length and character constraints, `add(name, value)` on a fresh collection
succeeds, `get(name)` returns the value, and lookup is case-insensitive:
`get` of the upper-cased name returns the same value.  (For an empty value
`get` returns nothing, which is the one correction to the claim.) -/
theorem HEADERS.add_get_roundtrip (nm v : Str)
    (hn : is_valid_header_name nm) (hv : is_valid_header_value v) (hne : v ≠ []) :
    HEADERS.add ⟨[]⟩ nm v = Except.ok ⟨[nm ++ [58, 32] ++ v]⟩
    ∧ HEADERS.get ⟨[nm ++ [58, 32] ++ v]⟩ nm = some v
    ∧ HEADERS.get ⟨[nm ++ [58, 32] ++ v]⟩ (upperStr nm) = some v := by
  have hc : (58 : Nat) ∉ nm := by
    intro hm
    exact (hn.2.2 58 hm) (Or.inr (Or.inr rfl))
  refine ⟨?_, ?_, ?_⟩
  · have hlen1 : nm.length ≤ 256 := hn.2.1
    have hlen2 : v.length ≤ 4096 := hv.1
    unfold HEADERS.add
    split_ifs with h1 h2
    · simp [MAX_HEADERS_COUNT] at h1
    · unfold MAX_HEADER_SIZE at h2
      omega
    · simp
  · exact headersGet_single_entry nm v nm hn.1 hn rfl rfl hc hne
  · refine headersGet_single_entry nm v (upperStr nm) ?_ (toupper_name_valid nm hn) ?_ ?_ hc hne
    · simpa [upperStr] using hn.1
    · simp only [lowerStr, upperStr, List.map_map]
      exact List.map_congr_left (fun c _ => tolower_toupper c)
    · simp [upperStr]

/-- Witness for C7 at the concrete name "Xy" and value "1": both the exact
and the upper-cased lookup return "1". -/
theorem HEADERS.add_get_roundtrip_witness :
    HEADERS.add ⟨[]⟩ [88, 121] [49] = Except.ok ⟨[[88, 121, 58, 32, 49]]⟩
    ∧ HEADERS.get ⟨[[88, 121, 58, 32, 49]]⟩ [88, 121] = some [49]
    ∧ HEADERS.get ⟨[[88, 121, 58, 32, 49]]⟩ (upperStr [88, 121]) = some [49] := by
  have h := HEADERS.add_get_roundtrip [88, 121] [49] (by decide) (by decide) (by decide)
  exact h


/-! ## Session (Session.hpp / Session.cpp, hardened variant) -/

/-- `std::isalnum` in the C locale: `[0-9A-Za-z]`. -/
def isalnum (c : Nat) : Prop :=
  (48 ≤ c ∧ c ≤ 57) ∨ (65 ≤ c ∧ c ≤ 90) ∨ (97 ≤ c ∧ c ≤ 122)

instance (c : Nat) : Decidable (isalnum c) := by
  unfold isalnum
  infer_instance

/-- One hexadecimal digit as emitted by an `ostringstream` with `std::hex`
set and `std::uppercase` not set: `0`–`9` then lowercase `a`–`f`. -/
def hexDigitLower (n : Nat) : Nat := if n < 10 then 48 + n else 87 + n

/-- `safe_url_encode` (Session.cpp lines 30–45): unreserved bytes
(`isalnum`, `-`, `_`, `.`, `~`) pass through; every other byte becomes `%`
followed by its two hex digits via `setw(2)`/`fill('0')` — in lowercase,
since the stream sets `std::hex` but never `std::uppercase`. -/
def safe_url_encode : Str → Str
  | [] => []
  | c :: rest =>
      (if isalnum c ∨ c = 45 ∨ c = 95 ∨ c = 46 ∨ c = 126 then [c]
       else [37, hexDigitLower (c / 16), hexDigitLower (c % 16)]) ++ safe_url_encode rest

/-- The query-building loop of `Session::send` (Session.cpp lines 365–375):
after `full_url += "?"`, each pair appends `&` (except before the first)
then `enc(key)=enc(value)`. -/
def appendParams (acc : Str) (first : Bool) : List (Str × Str) → Str
  | [] => acc
  | (k, v) :: rest =>
      appendParams
        ((if first then acc else acc ++ [38]) ++ safe_url_encode k ++ [61] ++ safe_url_encode v)
        false rest

/-- The effective target URL built by `Session::send` (lines 366–375): the
request URL, plus a `?`-prefixed query string when Params is non-empty. -/
def buildFullUrl (url : Str) (ps : List (Str × Str)) : Str :=
  if ps = [] then url else appendParams (url ++ [63]) true ps

/-- `REDIRECTS` (Redirects.hpp): allow flag and maximum hop count. -/
structure REDIRECTS where
  value : Bool := true
  max_redirects : Int := 30
deriving DecidableEq

/-- `REQUEST` (Request.hpp / part_009), restricted to the fields
`Session::send` reads.  `timeout_` is the `TIMEOUT` facet's value in
seconds (`TIMEOUT(long seconds = 0L)`). -/
structure REQUEST where
  url_ : Str := []
  method_ : Str := [71, 69, 84]
  headers_ : HEADERS := {}
  body_ : Str := []
  timeout_ : Int := 0
  auth_ : AUTH := {}
  cookies_ : COOKIES := {}
  allow_redirects_ : REDIRECTS := {}
  params_ : List (Str × Str) := []
  files_ : List (Str × Str) := []
  output_file_path_ : Str := []
deriving DecidableEq

/-- `Session` state used by the claims: the standing performance options
(Session.hpp lines 137–138: `connection_timeout_{30.0}`,
`transfer_timeout_{60.0}`) and the running statistics counters. -/
structure Session where
  connection_timeout_ : ℚ := 30
  transfer_timeout_ : ℚ := 60
  request_count_ : Nat := 0
  total_response_time_ : ℚ := 0
deriving DecidableEq

/-- `Session::update_statistics` (Session.cpp lines 711–714). -/
def Session.update_statistics (s : Session) (t : ℚ) : Session :=
  { s with
    request_count_ := s.request_count_ + 1
    total_response_time_ := s.total_response_time_ + t }

/-- `Session::get_request_count` (Session.cpp lines 683–685). -/
def Session.get_request_count (s : Session) : Nat := s.request_count_

/-- `Session::get_average_response_time` (Session.cpp lines 687–691):
`count > 0 ? total / count : 0.0`. -/
def Session.get_average_response_time (s : Session) : ℚ :=
  if 0 < s.request_count_ then s.total_response_time_ / (s.request_count_ : ℚ) else 0

/-- `static_cast<long>` of the (non-negative) timeout doubles. -/
def ratToLong (q : ℚ) : Int := q.floor

/-- The transport-engine options relevant to the claims, as set by one call
to `Session::send` after `curl_easy_reset` plus `apply_safety_settings`
and `apply_performance_settings` (Session.cpp lines 262–310, 358–470). -/
structure EngineConfig where
  timeout_opt : Int
  connecttimeout_opt : Int
  url_opt : Str
  custom_request_opt : Str
  nobody_opt : Bool
  userpwd_opt : Option Str
  followlocation_opt : Bool
  maxredirs_opt : Int
deriving DecidableEq

/-- The engine configuration computed by `Session::send` for a request:
`CURLOPT_TIMEOUT` is set only by `apply_performance_settings` from the
Session's `transfer_timeout_` (line 293); no statement of `send` reads
`request.timeout_`.  `CURLOPT_MAXREDIRS` is 10 from the safety settings
(line 270) unless redirects are allowed, in which case the request's hop
count is applied (lines 465–470). -/
def sendConfig (s : Session) (req : REQUEST) : EngineConfig :=
  { timeout_opt := ratToLong s.transfer_timeout_
    connecttimeout_opt := ratToLong s.connection_timeout_
    url_opt := buildFullUrl req.url_ req.params_
    custom_request_opt := req.method_
    nobody_opt := decide (req.output_file_path_ = [] ∧ req.method_ = [72, 69, 65, 68])
    userpwd_opt :=
      if req.auth_.type_ ≠ AuthType.none then some req.auth_.user_pass_string else none
    followlocation_opt := req.allow_redirects_.value
    maxredirs_opt :=
      if req.allow_redirects_.value then req.allow_redirects_.max_redirects else 10 }

def CURLE_COULDNT_RESOLVE_HOST : Nat := 6
def CURLE_COULDNT_CONNECT : Nat := 7
def CURLE_OPERATION_TIMEDOUT : Nat := 28
def CURLE_TOO_MANY_REDIRECTS : Nat := 47

/-- The engine-error translation of `Session::send` (Session.cpp lines
522–535): connect/resolve failures, the timeout code, the redirect-limit
code, and a default case. -/
def classifyCurlError (code : Nat) : ExcKind :=
  if code = CURLE_COULDNT_CONNECT ∨ code = CURLE_COULDNT_RESOLVE_HOST then
    ExcKind.connectionError
  else if code = CURLE_OPERATION_TIMEDOUT then ExcKind.timeout
  else if code = CURLE_TOO_MANY_REDIRECTS then ExcKind.tooManyRedirects
  else ExcKind.requestException

/-- The bytes of `"Set-Cookie:"`. -/
def setCookieTag : Str := [83, 101, 116, 45, 67, 111, 111, 107, 105, 101, 58]

/-- The per-line Set-Cookie parsing of `Session::send` (Session.cpp lines
491–504): a line starting with `"Set-Cookie:"` has its first 12 characters
dropped (`substr(12)` — the 11-byte tag plus one more character, normally
the space), is split at the first `=`, and the value runs to the first `;`
at or after that point, or to the end; lines without `=` contribute
nothing. -/
def parseCookieLine (cs : COOKIES) (line : Str) : COOKIES :=
  if setCookieTag.isPrefixOf line then
    let cookie_str := line.drop 12
    match strFind 61 cookie_str with
    | none => cs
    | some eq =>
        let value :=
          match strFindFrom 59 cookie_str eq with
          | some semi => (cookie_str.drop (eq + 1)).take (semi - (eq + 1))
          | none => cookie_str.drop (eq + 1)
        cs.add (cookie_str.take eq) value
  else cs

/-- The received-cookies mapping assembled from the captured response
header lines (Session.cpp lines 491–504). -/
def parseReceivedCookies (lines : List Str) : COOKIES :=
  lines.foldl parseCookieLine {}

/-- Outcome of `curl_easy_perform` plus the post-transfer info queries:
either success with the engine-reported status, total time, captured
header lines, accumulated body, redirect count and effective URL, or
failure with a non-OK engine error code. -/
inductive EngineOutcome where
  | success (status : Int) (total_time : ℚ) (headerLines : List Str) (bodyStr : Str)
      (redirectCount : Nat) (effectiveUrl : Str)
  | failure (code : Nat)

/-- The control flow of `Session::send` (Session.cpp lines 336–552) around
one engine transfer: request validation (`validate_request`, lines
312–334), then either the success path that assembles a `RESPONSE` and
updates statistics (lines 475–520), or an error translation (lines
522–535); the surrounding catch block (lines 545–551) updates statistics
on every failure before re-throwing.  The pair returned is the call's
outcome together with the Session statistics after the call. -/
def sendModel (s : Session) (req : REQUEST) (outDirWritable : Bool)
    (engine : EngineOutcome) (elapsed : ℚ) : Except ExcKind RESPONSE × Session :=
  if req.url_ = [] then
    (Except.error ExcKind.requestException, s.update_statistics elapsed)
  else if req.output_file_path_ ≠ [] ∧ outDirWritable = false then
    (Except.error ExcKind.requestException, s.update_statistics elapsed)
  else
    match engine with
    | EngineOutcome.failure code =>
        (Except.error (classifyCurlError code), s.update_statistics elapsed)
    | EngineOutcome.success status total hls bodyS rc eff =>
        (Except.ok
          { statusCode := status
            body := if req.output_file_path_ ≠ [] ∨ req.method_ = [72, 69, 65, 68] then []
                    else bodyS
            headers := hls
            request_url := req.url_
            received_cookies := parseReceivedCookies hls
            elapsed_time := total
            history := if 0 < rc then [eff] else [] },
         s.update_statistics elapsed)

/-! ### Claim C3 -/

/-- The claim's unreserved set `[A-Za-z0-9-_.~]`. -/
def Unreserved (c : Nat) : Prop :=
  (65 ≤ c ∧ c ≤ 90) ∨ (97 ≤ c ∧ c ≤ 122) ∨ (48 ≤ c ∧ c ≤ 57) ∨
    c = 45 ∨ c = 95 ∨ c = 46 ∨ c = 126

instance (c : Nat) : Decidable (Unreserved c) := by
  unfold Unreserved
  infer_instance

/-- A lowercase hexadecimal digit byte (`0`–`9` or `a`–`f`). -/
def IsLowerHexDigit (d : Nat) : Prop := (48 ≤ d ∧ d ≤ 57) ∨ (97 ≤ d ∧ d ≤ 102)

/-- One `key=value` query fragment, encoded as the code encodes it. -/
def encodePairLower (p : Str × Str) : Str :=
  safe_url_encode p.1 ++ [61] ++ safe_url_encode p.2

/-- `&`-join of already-encoded fragments (the spec's description of the
query string's shape). -/
def ampJoin : List Str → Str
  | [] => []
  | [s] => s
  | s :: rest => s ++ [38] ++ ampJoin rest

def ampTail : List (Str × Str) → Str
  | [] => []
  | p :: rest => [38] ++ encodePairLower p ++ ampTail rest

theorem appendParams_false_eq (acc : Str) (l : List (Str × Str)) :
    appendParams acc false l = acc ++ ampTail l := by
  induction l generalizing acc with
  | nil => simp [appendParams, ampTail]
  | cons p rest ih =>
    obtain ⟨k, v⟩ := p
    simp [appendParams, ampTail, encodePairLower, ih, List.append_assoc]

theorem ampJoin_map :
    ∀ (rest : List (Str × Str)) (p : Str × Str),
      ampJoin ((p :: rest).map encodePairLower) = encodePairLower p ++ ampTail rest
  | [], _ => by simp [ampJoin, ampTail]
  | q :: r, p => by
    have ih := ampJoin_map r q
    simp only [List.map_cons] at ih ⊢
    show encodePairLower p ++ [38] ++ ampJoin (encodePairLower q :: List.map encodePairLower r)
        = encodePairLower p ++ ([38] ++ encodePairLower q ++ ampTail r)
    rw [ih]
    simp [List.append_assoc]

/-- The claim's encoding rule as written: unreserved bytes literal, every
other byte as `%` plus two uppercase hexadecimal digits. -/
def hexDigitUpper (n : Nat) : Nat := if n < 10 then 48 + n else 55 + n

def claim_url_encode_upper : Str → Str
  | [] => []
  | c :: rest =>
      (if Unreserved c then [c]
       else [37, hexDigitUpper (c / 16), hexDigitUpper (c % 16)]) ++ claim_url_encode_upper rest

def claimFullUrlUpper (url : Str) (ps : List (Str × Str)) : Str :=
  if ps = [] then url
  else url ++ [63] ++
    ampJoin (ps.map (fun p => claim_url_encode_upper p.1 ++ [61] ++ claim_url_encode_upper p.2))

/-- C3 counterexample: for the single parameter `a` ↦ `":"` (byte 0x3A),
the code produces `u?a=%3a` — lowercase hex — while the claim's
uppercase-hex rule demands `u?a=%3A`. -/
theorem buildFullUrl_lowercase_counterexample :
    buildFullUrl [117] [([97], [58])] = [117, 63, 97, 61, 37, 51, 97]
    ∧ claimFullUrlUpper [117] [([97], [58])] = [117, 63, 97, 61, 37, 51, 65]
    ∧ buildFullUrl [117] [([97], [58])] ≠ claimFullUrlUpper [117] [([97], [58])] := by
  refine ⟨by decide, by decide, by decide⟩

/-- C3 (corrected): for a non-empty Params mapping, `send` appends to the
URL a `?`-prefixed, `&`-joined query string of `key=value` pairs in which
unreserved bytes `[A-Za-z0-9-_.~]` are emitted literally and every other
byte is `%` followed by its two hexadecimal digits in lowercase (the
claim said uppercase). -/
theorem buildFullUrl_spec (url : Str) (ps : List (Str × Str)) (hne : ps ≠ []) :
    buildFullUrl url ps = url ++ [63] ++ ampJoin (ps.map encodePairLower)
    ∧ (∀ c, c < 256 → Unreserved c → safe_url_encode [c] = [c])
    ∧ (∀ c, c < 256 → ¬ Unreserved c →
        safe_url_encode [c] = [37, hexDigitLower (c / 16), hexDigitLower (c % 16)]
        ∧ IsLowerHexDigit (hexDigitLower (c / 16))
        ∧ IsLowerHexDigit (hexDigitLower (c % 16))) := by
  refine ⟨?_, ?_, ?_⟩
  · obtain ⟨p, rest, rfl⟩ := List.exists_cons_of_ne_nil hne
    obtain ⟨k, v⟩ := p
    unfold buildFullUrl
    rw [if_neg hne]
    show appendParams (url ++ [63]) true (((k, v)) :: rest) = _
    rw [ampJoin_map rest (k, v)]
    simp [appendParams, appendParams_false_eq, encodePairLower, List.append_assoc]
  · intro c _ hu
    have hcode : isalnum c ∨ c = 45 ∨ c = 95 ∨ c = 46 ∨ c = 126 := by
      unfold isalnum
      unfold Unreserved at hu
      omega
    simp [safe_url_encode, hcode]
  · intro c hc hu
    have hcode : ¬ (isalnum c ∨ c = 45 ∨ c = 95 ∨ c = 46 ∨ c = 126) := by
      unfold isalnum
      unfold Unreserved at hu
      omega
    refine ⟨by simp [safe_url_encode, hcode], ?_, ?_⟩
    · unfold IsLowerHexDigit hexDigitLower
      have h1 : c / 16 ≤ 15 := by omega
      split_ifs <;> omega
    · unfold IsLowerHexDigit hexDigitLower
      have h2 : c % 16 ≤ 15 := by omega
      split_ifs <;> omega

/-- Witness for C3 at the single parameter `a` ↦ `b`. -/
theorem buildFullUrl_spec_witness :
    buildFullUrl [117] [([97], [98])]
      = [117] ++ [63] ++ ampJoin ([([97], [98])].map encodePairLower)
    ∧ safe_url_encode [98] = [98] := by
  have h := buildFullUrl_spec [117] [([97], [98])] (by decide)
  exact ⟨h.1, h.2.1 98 (by decide) (by decide)⟩

/-! ### Claim C4 -/

/-- C4 (code_bug): the claim (and the repository's API reference: `TIMEOUT`
"sets the request timeout") says `send` maps the Request's Timeout onto the
engine's timeout option.  In fact `send` never reads `request.timeout_`:
the engine's `CURLOPT_TIMEOUT` is set by `apply_performance_settings` from
the Session's `transfer_timeout_` (60 by default), and the minimal
Session.cpp variant even carries the comment "TODO: Add timeout, proxy,
verify options".  With a request timeout of 1 second the engine option
remains 60, and the whole engine configuration is unchanged whatever
timeout the Request carries. -/
theorem sendConfig_ignores_request_timeout_code_bug :
    (sendConfig {} { url_ := [104], timeout_ := 1 }).timeout_opt = 60
    ∧ (sendConfig {} { url_ := [104], timeout_ := 1 }).timeout_opt
        ≠ ({ url_ := [104], timeout_ := 1 } : REQUEST).timeout_
    ∧ sendConfig {} { url_ := [104], timeout_ := 1 }
        = sendConfig {} { url_ := [104], timeout_ := 5 } := by
  have h60 : (sendConfig {} { url_ := [104], timeout_ := 1 }).timeout_opt = 60 := by
    show ratToLong (60 : ℚ) = 60
    unfold ratToLong
    decide
  refine ⟨h60, ?_, rfl⟩
  rw [h60]
  decide

/-! ### Claim C5 -/

/-- C5 (confirmed): when the engine transfer fails with code `c`, `send`
raises exactly the translated error kind — ConnectionError for the
connect/resolve codes, Timeout for the engine timeout code,
TooManyRedirects for the redirect-limit code, RequestException for every
other code — and never returns a Response in a failure case. -/
theorem sendModel_error_taxonomy (s : Session) (req : REQUEST) (w : Bool)
    (code : Nat) (elapsed : ℚ)
    (hurl : req.url_ ≠ []) (hout : ¬(req.output_file_path_ ≠ [] ∧ w = false)) :
    (sendModel s req w (EngineOutcome.failure code) elapsed).1
      = Except.error (classifyCurlError code)
    ∧ (classifyCurlError code = ExcKind.connectionError ↔
        (code = CURLE_COULDNT_CONNECT ∨ code = CURLE_COULDNT_RESOLVE_HOST))
    ∧ (classifyCurlError code = ExcKind.timeout ↔ code = CURLE_OPERATION_TIMEDOUT)
    ∧ (classifyCurlError code = ExcKind.tooManyRedirects ↔ code = CURLE_TOO_MANY_REDIRECTS)
    ∧ ((code ≠ CURLE_COULDNT_CONNECT ∧ code ≠ CURLE_COULDNT_RESOLVE_HOST
        ∧ code ≠ CURLE_OPERATION_TIMEDOUT ∧ code ≠ CURLE_TOO_MANY_REDIRECTS) →
        classifyCurlError code = ExcKind.requestException)
    ∧ classifyCurlError code ≠ ExcKind.httpError
    ∧ (∀ r : RESPONSE,
        (sendModel s req w (EngineOutcome.failure code) elapsed).1 ≠ Except.ok r) := by
  have hsend : (sendModel s req w (EngineOutcome.failure code) elapsed).1
      = Except.error (classifyCurlError code) := by
    unfold sendModel
    rw [if_neg hurl, if_neg hout]
  refine ⟨hsend, ?_, ?_, ?_, ?_, ?_, fun r => by rw [hsend]; simp⟩
  all_goals
    unfold classifyCurlError CURLE_COULDNT_CONNECT CURLE_COULDNT_RESOLVE_HOST
      CURLE_OPERATION_TIMEDOUT CURLE_TOO_MANY_REDIRECTS
    split_ifs <;> simp_all <;> omega

/-- Witness for C5: a valid request failing with the engine timeout code 28
raises the Timeout kind. -/
theorem sendModel_error_taxonomy_witness :
    (sendModel {} { url_ := [104] } true (EngineOutcome.failure 28) 0).1
      = Except.error (classifyCurlError 28)
    ∧ (classifyCurlError 28 = ExcKind.timeout ↔ 28 = CURLE_OPERATION_TIMEDOUT) := by
  have h := sendModel_error_taxonomy {} { url_ := [104] } true 28 0 (by decide) (by simp)
  exact ⟨h.1, h.2.2.1⟩

/-! ### Claim C9 -/

/-- C9 (confirmed): the request count and cumulative response time advance
by exactly one call's worth on every path through `send` — validation
failure, engine failure, and success alike — and the average response time
is the cumulative time divided by the count. -/
theorem sendModel_updates_statistics (s : Session) (req : REQUEST) (w : Bool)
    (engine : EngineOutcome) (elapsed : ℚ) :
    ((sendModel s req w engine elapsed).2).get_request_count = s.get_request_count + 1
    ∧ ((sendModel s req w engine elapsed).2).total_response_time_
        = s.total_response_time_ + elapsed
    ∧ (0 < s.request_count_ →
        s.get_average_response_time = s.total_response_time_ / (s.request_count_ : ℚ))
    ∧ ((sendModel s req w engine elapsed).2).get_average_response_time
        = (s.total_response_time_ + elapsed) / ((s.request_count_ : ℚ) + 1) := by
  have hstats : (sendModel s req w engine elapsed).2 = s.update_statistics elapsed := by
    unfold sendModel
    split_ifs <;> cases engine <;> rfl
  refine ⟨?_, ?_, ?_, ?_⟩
  · rw [hstats]
    rfl
  · rw [hstats]
    rfl
  · intro h
    unfold Session.get_average_response_time
    rw [if_pos h]
  · rw [hstats]
    unfold Session.get_average_response_time Session.update_statistics
    rw [if_pos (Nat.succ_pos _)]
    push_cast
    ring
/-- Witness for C9: a Session with 2 prior calls and 5 seconds accumulated
gains a third call, and its prior average is 5/2. -/
theorem sendModel_updates_statistics_witness :
    ((sendModel ⟨30, 60, 2, 5⟩ { url_ := [104] } true (EngineOutcome.failure 28) 3).2).get_request_count = 3
    ∧ Session.get_average_response_time ⟨30, 60, 2, 5⟩ = 5 / 2 := by
  have h := sendModel_updates_statistics ⟨30, 60, 2, 5⟩ { url_ := [104] } true
    (EngineOutcome.failure 28) 3
  refine ⟨?_, ?_⟩
  · rw [h.1]
    rfl
  · have h2 := h.2.2.1 (by decide)
    simpa using h2

/-! ### Claim C8 -/

/-- The claim's parsing rule as written: a captured line beginning with
`"Set-Cookie:"` is stripped of that 11-character tag, split on the first
`=`, the value running to the first `;` (at or after the `=`) or the end
of the string; lines without `=` contribute nothing. -/
def claimParseCookieLine (cs : COOKIES) (line : Str) : COOKIES :=
  if setCookieTag.isPrefixOf line then
    let rest := line.drop setCookieTag.length
    match strFind 61 rest with
    | none => cs
    | some eq =>
        let value :=
          match strFindFrom 59 rest eq with
          | some semi => (rest.drop (eq + 1)).take (semi - (eq + 1))
          | none => rest.drop (eq + 1)
        cs.add (rest.take eq) value
  else cs

/-- C8 counterexample: for the captured line `Set-Cookie:sid=x` — which
begins with `"Set-Cookie:"` but has no space after the colon — the claim's
rule yields the entry `sid ↦ x`, while the code, which always drops 12
characters (`substr(12)`), yields `id ↦ x` and has no entry for `sid`. -/
theorem parseCookieLine_counterexample :
    (claimParseCookieLine {} (setCookieTag ++ [115, 105, 100, 61, 120])).get [115, 105, 100]
      = some [120]
    ∧ (parseCookieLine {} (setCookieTag ++ [115, 105, 100, 61, 120])).get [115, 105, 100]
      = none
    ∧ (parseCookieLine {} (setCookieTag ++ [115, 105, 100, 61, 120])).get [105, 100]
      = some [120] := by
  refine ⟨by decide, by decide, by decide⟩

/-- C8 (corrected): a captured response header line of the standard form
`Set-Cookie: name=value[;...]` — the tag, one further character (the
space), then the cookie text — is parsed by splitting on the first `=`,
the value running to the first `;` after it or the end of the string, and
the pair lands in the received-cookies mapping; the code drops the first
12 characters of the line, not just the 11-character tag as the claim
says. -/
theorem parseCookieLine_spec (cs : COOKIES) (nm v rest : Str)
    (h61 : (61 : Nat) ∉ nm) (h59 : (59 : Nat) ∉ v)
    (hrest : rest = [] ∨ ∃ r', rest = 59 :: r') :
    parseCookieLine cs (setCookieTag ++ [32] ++ (nm ++ [61] ++ v ++ rest)) = cs.add nm v
    ∧ (parseCookieLine cs (setCookieTag ++ [32] ++ (nm ++ [61] ++ v ++ rest))).get nm
      = some v := by
  have hmain : parseCookieLine cs (setCookieTag ++ [32] ++ (nm ++ [61] ++ v ++ rest))
      = cs.add nm v := by
    have hpre : setCookieTag.isPrefixOf (setCookieTag ++ [32] ++ (nm ++ [61] ++ v ++ rest))
        = true := by
      have he : setCookieTag ++ [32] ++ (nm ++ [61] ++ v ++ rest)
          = setCookieTag ++ ([32] ++ (nm ++ [61] ++ v ++ rest)) := by
        simp [List.append_assoc]
      rw [he]
      exact isPrefixOf_append _ _
    have hdrop : (setCookieTag ++ [32] ++ (nm ++ [61] ++ v ++ rest)).drop 12
        = nm ++ [61] ++ v ++ rest := by
      have h12 : (setCookieTag ++ [32] : Str).length = 12 := by decide
      rw [← h12]
      exact List.drop_left _ _
    have hteq : nm ++ [61] ++ v ++ rest = nm ++ 61 :: (v ++ rest) := by
      simp [List.append_assoc]
    have hfind : strFind 61 (nm ++ [61] ++ v ++ rest) = some nm.length := by
      rw [hteq]
      exact strFind_append_cons 61 nm (v ++ rest) h61
    have htake : (nm ++ [61] ++ v ++ rest).take nm.length = nm := by
      rw [hteq]
      exact List.take_left _ _
    have hdrop1 : (nm ++ [61] ++ v ++ rest).drop (nm.length + 1) = v ++ rest := by
      have he : nm ++ [61] ++ v ++ rest = (nm ++ [61]) ++ (v ++ rest) := by
        simp [List.append_assoc]
      have hl : (nm ++ [61] : Str).length = nm.length + 1 := by simp
      rw [he, ← hl]
      exact List.drop_left _ _
    have hdropfind : (nm ++ [61] ++ v ++ rest).drop nm.length = 61 :: (v ++ rest) := by
      have he : nm ++ [61] ++ v ++ rest = nm ++ (61 :: (v ++ rest)) := hteq
      have hl : nm.length = (nm : Str).length := rfl
      rw [he]
      have := List.drop_left nm (61 :: (v ++ rest))
      exact this
    unfold parseCookieLine
    rw [if_pos hpre]
    simp only [hdrop, hfind, htake]
    rcases hrest with hr | ⟨r', hr⟩
    · subst hr
      have hsemi : strFindFrom 59 (nm ++ [61] ++ v ++ []) nm.length = none := by
        unfold strFindFrom
        rw [hdropfind]
        have h1 : strFind 59 (61 :: (v ++ [])) = (strFind 59 (v ++ [])).map (· + 1) := by
          simp [strFind]
        rw [h1]
        have h2 : strFind 59 (v ++ []) = none := by
          rw [strFind_eq_none_iff]
          simpa using h59
        rw [h2]
        rfl
      simp only [hsemi, hdrop1]
      simp
    · subst hr
      have hsemi : strFindFrom 59 (nm ++ [61] ++ v ++ (59 :: r')) nm.length
          = some (v.length + 1 + nm.length) := by
        unfold strFindFrom
        rw [hdropfind]
        have h1 : strFind 59 (61 :: (v ++ 59 :: r'))
            = (strFind 59 (v ++ 59 :: r')).map (· + 1) := by
          simp [strFind]
        rw [h1, strFind_append_cons 59 v r' h59]
        rfl
      simp only [hsemi, hdrop1]
      have harith : v.length + 1 + nm.length - (nm.length + 1) = v.length := by omega
      rw [harith]
      have htakev : ((v ++ 59 :: r') : Str).take v.length = v := by
        have := List.take_left v (59 :: r')
        exact this
      rw [htakev]
  exact ⟨hmain, by rw [hmain]; exact COOKIES.get_add cs nm v⟩

/-- Witness for C8 at the claim's concrete example: the captured line
`Set-Cookie: session=abc123; Path=/` puts `session ↦ abc123` into the
received-cookies mapping. -/
theorem parseCookieLine_spec_witness :
    (parseCookieLine {} (setCookieTag ++ [32] ++
        ([115, 101, 115, 115, 105, 111, 110] ++ [61] ++ [97, 98, 99, 49, 50, 51] ++
          [59, 32, 80, 97, 116, 104, 61, 47]))).get [115, 101, 115, 115, 105, 111, 110]
      = some [97, 98, 99, 49, 50, 51] := by
  exact (parseCookieLine_spec {} [115, 101, 115, 115, 105, 111, 110]
    [97, 98, 99, 49, 50, 51] [59, 32, 80, 97, 116, 104, 61, 47]
    (by decide) (by decide) (Or.inr ⟨[32, 80, 97, 116, 104, 61, 47], rfl⟩)).2
